import Mathlib

/-!
Shallow embedding of the MindMeld CRF feature-binning pipeline
(`mindmeld/models/taggers/crf.py`) and of the classifier loading path
(`mmworkbench/processor/classifier.py`).

Machine floats are idealised as real numbers; `numpy` statistics
(`np.mean`, `np.std`, `np.searchsorted`) are embedded by their documented
exact-arithmetic semantics.
-/

namespace Mindmeld

/-- Source constant `ZERO = 1e-20` from crf.py. -/
noncomputable def ZERO : ℝ := 1 / 10 ^ 20

/-- Embedding of `np.mean(values)`: arithmetic mean. -/
noncomputable def pmean (values : List ℝ) : ℝ := values.sum / values.length

/-- Embedding of the population variance used by `np.std`: mean of squared
deviations from the mean (ddof = 0). -/
noncomputable def pvariance (values : List ℝ) : ℝ :=
  ((values.map fun v => (v - pmean values) ^ 2).sum) / values.length

/-- Embedding of `np.std(values)`: square root of the population variance. -/
noncomputable def pstd (values : List ℝ) : ℝ := Real.sqrt (pvariance values)

/-- Embedding of Python `int(x)` on a float: truncation toward zero. -/
noncomputable def pyInt (x : ℝ) : ℤ := if 0 ≤ x then ⌊x⌋ else ⌈x⌉

/-- The `while num_bin > 0 and self.std > ZERO` loop body of
`FeatureMapper.fit`: starting from the current `range_start` value `r`,
append `num_bin` further boundaries, each advancing by `std * size_std`,
as long as `std` exceeds `ZERO`. -/
noncomputable def binLoop (s size_std r : ℝ) : ℕ → List ℝ
  | 0 => []
  | n + 1 =>
    if ZERO < s then (r + s * size_std) :: binLoop s size_std (r + s * size_std) n
    else []

/-- Embedding of `FeatureMapper.fit` for a mapper holding `values`:
computes `std` and `mean`, starts the bin list at `mean - std * num_std`
and extends it by the loop with `num_bin = 2 * int(num_std / size_std)`
iterations.  Returns the resulting `_std_bins` sequence. -/
noncomputable def fitBins (num_std size_std : ℝ) (values : List ℝ) : List ℝ :=
  let s := pstd values
  let m := pmean values
  let start := m - s * num_std
  start :: binLoop s size_std start (2 * pyInt (num_std / size_std)).toNat

/-- Embedding of `np.searchsorted(bins, v)` with the default side as used by
`FeatureMapper.map_bucket`: for a sorted boundary list, the insertion index
that keeps the list sorted placing `v` before equal boundaries, i.e. the
index of the first boundary that is greater than or equal to `v`. -/
noncomputable def searchsortedLeft (bins : List ℝ) (v : ℝ) : ℕ :=
  match bins with
  | [] => 0
  | b :: rest => if v ≤ b then 0 else searchsortedLeft rest v + 1

/-- Modelled from the spec's words for `map_bucket` (and matching the
`FeatureMapper` class docstring's half-open bucket intervals): the index of
the first boundary strictly greater than `v`, i.e. for a sorted boundary
list the count of boundaries that are less than or equal to `v`. -/
noncomputable def mapBucketSpec (bins : List ℝ) (v : ℝ) : ℕ :=
  match bins with
  | [] => 0
  | b :: rest => if v < b then 0 else mapBucketSpec rest v + 1

/-- Embedded Python feature values as they occur in per-token feature
dictionaries and in the binner's output: numbers, strings that parse as a
float (carrying their parse result), strings that do not, the `None`
object (standing for any non-string non-number object), and the integer
bucket index produced by `map_bucket`. -/
inductive PyVal : Type
  | num (x : ℝ)
  | numStr (x : ℝ)
  | rawStr (s : String)
  | pyNone
  | bucket (n : ℕ)

/-- The two Python exception kinds relevant to `float(feat_value)`:
`ValueError` (a string that does not parse) and `TypeError` (an argument
that is neither a string nor a number, e.g. `None`). -/
inductive PyErr : Type
  | valueError
  | typeError

/-- Embedding of `float(feat_value)`: numbers and numeric strings coerce,
a non-numeric string raises `ValueError`, `None` raises `TypeError`, and a
numpy bucket integer coerces to its value. -/
def pyFloat : PyVal → Except PyErr ℝ
  | .num x => .ok x
  | .numStr x => .ok x
  | .rawStr _ => .error .valueError
  | .pyNone => .error .typeError
  | .bucket n => .ok n

/-- The collected per-feature numeric observations: the binner's
`self.features` dictionary, with each mapper represented by its `values`
list.  Python dict assignment replaces an existing key in place and
appends a new key at the end. -/
def dictSet {α : Type} : List (String × α) → String → α → List (String × α)
  | [], k, v => [(k, v)]
  | (k1, v1) :: rest, k, v =>
    if k1 = k then (k, v) :: rest else (k1, v1) :: dictSet rest k v

/-- Embedding of `FeatureBinner._collect_feature`: coerce the value to a
float; a `ValueError` is caught and collection is skipped, any other
exception propagates; on success the value is appended to the feature's
mapper (a fresh empty mapper when the name is new) and the mapper stored
back under the name. -/
def collectFeature (feats : List (String × List ℝ)) (name : String) (v : PyVal) :
    Except PyErr (List (String × List ℝ)) :=
  match pyFloat v with
  | .error .valueError => .ok feats
  | .error e => .error e
  | .ok x => .ok (dictSet feats name (((List.lookup name feats).getD []) ++ [x]))

/-- One token's feature dictionary, as an ordered association list. -/
abbrev Word : Type := List (String × PyVal)

/-- A dataset: a list of sentences, each a list of token dictionaries. -/
abbrev Dataset : Type := List (List Word)

/-- The collection loop of `FeatureBinner.fit` over one token. -/
def collectWord (feats : List (String × List ℝ)) : Word → Except PyErr (List (String × List ℝ))
  | [] => .ok feats
  | nv :: rest => do
    let feats1 ← collectFeature feats nv.1 nv.2
    collectWord feats1 rest

/-- The collection loop of `FeatureBinner.fit` over one sentence. -/
def collectSentence (feats : List (String × List ℝ)) :
    List Word → Except PyErr (List (String × List ℝ))
  | [] => .ok feats
  | w :: rest => do
    let feats1 ← collectWord feats w
    collectSentence feats1 rest

/-- The triple collection loop of `FeatureBinner.fit` over a dataset. -/
def binnerCollect (feats : List (String × List ℝ)) :
    Dataset → Except PyErr (List (String × List ℝ))
  | [] => .ok feats
  | s :: rest => do
    let feats1 ← collectSentence feats s
    binnerCollect feats1 rest

/-- Embedding of `FeatureBinner.fit` on a fresh binner: collect every
feature value of the dataset, then fit every stored mapper (with the
default hyperparameters `num_std = 2`, `size_std = 0.5` of the
`FeatureMapper` constructor), yielding the fitted bins per feature name. -/
noncomputable def binnerFit (X : Dataset) : Except PyErr (List (String × List ℝ)) := do
  let feats ← binnerCollect [] X
  pure (feats.map fun p => (p.1, fitBins 2 (1 / 2) p.2))

/-- Embedding of `FeatureBinner._map_feature` on a fitted binner: coerce
the value; on `ValueError` pass the original value through unchanged, on
any other exception propagate; if the name has no mapper return the
coerced float under the same name; otherwise return the mapper's bucket
index for the coerced float. -/
noncomputable def mapFeature (fitted : List (String × List ℝ)) (name : String) (v : PyVal) :
    Except PyErr (List (String × PyVal)) :=
  match pyFloat v with
  | .error .valueError => .ok [(name, v)]
  | .error e => .error e
  | .ok x =>
    match List.lookup name fitted with
    | none => .ok [(name, PyVal.num x)]
    | some bins => .ok [(name, PyVal.bucket (searchsortedLeft bins x))]

/-- The inner loop of `FeatureBinner.transform` building one output token:
each mapped feature is added to the new token dictionary only when the
returned dict is non-empty (the `if new_feats` guard). -/
noncomputable def transformWord (fitted : List (String × List ℝ)) : Word → Except PyErr Word
  | [] => .ok []
  | nv :: rest => do
    let nf ← mapFeature fitted nv.1 nv.2
    let restOut ← transformWord fitted rest
    pure ((if nf.isEmpty then [] else nf) ++ restOut)

/-- The middle loop of `FeatureBinner.transform` over one sentence. -/
noncomputable def transformSentence (fitted : List (String × List ℝ)) :
    List Word → Except PyErr (List Word)
  | [] => .ok []
  | w :: rest => do
    let w1 ← transformWord fitted w
    let rest1 ← transformSentence fitted rest
    pure (w1 :: rest1)

/-- Embedding of `FeatureBinner.transform` on a binner whose fitted state
is `fitted`. -/
noncomputable def binnerTransform (fitted : List (String × List ℝ)) :
    Dataset → Except PyErr Dataset
  | [] => .ok []
  | s :: rest => do
    let s1 ← transformSentence fitted s
    let rest1 ← binnerTransform fitted rest
    pure (s1 :: rest1)

/-- Embedding of `CRFTagger.predict_proba`'s reporting step over the
underlying model's outputs: for every query and token position, pair the
predicted tag with the mass the token's marginal distribution assigns to
that tag (`marginals_dict[query_index][i][tag]`). -/
def predictProba {T : Type} (pred : List (List T)) (marg : List (List (T → ℝ))) :
    List (List (T × ℝ)) :=
  (pred.zip marg).map fun q => (q.1.zip q.2).map fun tm => (tm.1, tm.2 tm.1)

end Mindmeld

namespace Mmworkbench

/-- The Python exceptions relevant to `Classifier.load`: the low-level
file-not-found error raised by the persistence layer, and the
domain-specific `ClassifierLoadError` carrying a message. -/
inductive PyException : Type
  | fileNotFoundError
  | classifierLoadError (msg : String)

/-- Modelled from the spec: `joblib.load` (persistence mechanics outside
the excerpt) returns the pickled model stored at `path`, raising the
file-not-found error (the `FileNotFoundError` of the `mmworkbench.exceptions`
module, also outside the excerpt) when no file exists there.  The
filesystem is abstracted as a partial map from paths to models. -/
def joblibLoad {M : Type} (fs : String → Option M) (path : String) :
    Except PyException M :=
  match fs path with
  | some m => .ok m
  | none => .error .fileNotFoundError

/-- Python `repr` of a plain string (no embedded quotes or escapes), as
produced by the format spec used in the load-failure message. -/
def pyRepr (s : String) : String := "\x27" ++ s ++ "\x27"

/-- The message built by `Classifier.load` for a missing pickle file. -/
def loadErrorMsg (className path : String) : String :=
  "Unable to load " ++ className ++ ". Pickle file not found at " ++ pyRepr path

/-- The mutable state of a `Classifier` relevant to `load`: its `_model`
slot. -/
structure ClassifierState (M : Type) where
  model : Option M

/-- Embedding of `Classifier.load`: try to load the pickle at `path` into
`_model`; when the load raises the file-not-found error, the assignment
never happens and a `ClassifierLoadError` naming the class and the path is
raised instead.  The result pairs the state after the call with the
exception raised, if any. -/
def classifierLoad {M : Type} (fs : String → Option M) (className : String)
    (st : ClassifierState M) (path : String) :
    ClassifierState M × Option PyException :=
  match joblibLoad fs path with
  | .ok m => ({ model := some m }, none)
  | .error _ => (st, some (.classifierLoadError (loadErrorMsg className path)))

end Mmworkbench
namespace Mindmeld

lemma pmean_replicate (n : ℕ) (hn : 0 < n) (c : ℝ) : pmean (List.replicate n c) = c := by
  rw [pmean]
  simp [List.sum_replicate, nsmul_eq_mul]
  field_simp

lemma pvariance_replicate (n : ℕ) (hn : 0 < n) (c : ℝ) :
    pvariance (List.replicate n c) = 0 := by
  rw [pvariance, pmean_replicate n hn c]
  simp [List.map_replicate, List.sum_replicate]

lemma pstd_replicate (n : ℕ) (hn : 0 < n) (c : ℝ) : pstd (List.replicate n c) = 0 := by
  rw [pstd, pvariance_replicate n hn c]
  exact Real.sqrt_zero

lemma binLoop_zero_std (size_std r : ℝ) (n : ℕ) : binLoop 0 size_std r n = [] := by
  cases n with
  | zero => rfl
  | succ m =>
    rw [binLoop]
    rw [if_neg]
    rw [ZERO]
    norm_num

lemma fitBins_replicate (ns ss c : ℝ) (n : ℕ) (hn : 0 < n) :
    fitBins ns ss (List.replicate n c) = [c] := by
  rw [fitBins]
  simp only [pstd_replicate n hn c, pmean_replicate n hn c, binLoop_zero_std]
  norm_num

lemma searchsortedLeft_singleton (c v : ℝ) :
    searchsortedLeft [c] v = if v ≤ c then 0 else 1 := by
  rw [searchsortedLeft]
  split
  · rfl
  · rw [searchsortedLeft]

lemma searchsortedLeft_mono (bins : List ℝ) (v w : ℝ) (hvw : v ≤ w) :
    searchsortedLeft bins v ≤ searchsortedLeft bins w := by
  induction bins with
  | nil => exact le_refl _
  | cons b rest ih =>
    rw [searchsortedLeft, searchsortedLeft]
    by_cases hw : w ≤ b
    · rw [if_pos (le_trans hvw hw), if_pos hw]
    · rw [if_neg hw]
      by_cases hv : v ≤ b
      · rw [if_pos hv]; exact Nat.zero_le _
      · rw [if_neg hv]; exact Nat.succ_le_succ ih

lemma binLoop_pos_eq (s ss : ℝ) (hs : ZERO < s) (n : ℕ) (r : ℝ) :
    binLoop s ss r n = (List.range n).map fun k => r + (k + 1 : ℕ) * (s * ss) := by
  induction n generalizing r with
  | zero => rfl
  | succ m ih =>
    rw [binLoop, if_pos hs, ih]
    rw [List.range_succ_eq_map, List.map_cons, List.map_map]
    congr 1
    · push_cast; ring
    · apply List.map_congr_left
      intro a _
      simp only [Function.comp]
      push_cast
      ring

lemma fitBins_pos_eq (ns ss : ℝ) (values : List ℝ) (hstd : ZERO < pstd values)
    (hr : 0 ≤ ns / ss) :
    fitBins ns ss values =
      (List.range (2 * (⌊ns / ss⌋).toNat + 1)).map
        fun k => (pmean values - pstd values * ns) + (k : ℕ) * (pstd values * ss) := by
  rw [fitBins]
  have hpy : pyInt (ns / ss) = ⌊ns / ss⌋ := by rw [pyInt, if_pos hr]
  have hfl : 0 ≤ ⌊ns / ss⌋ := Int.floor_nonneg.mpr hr
  have htn : (2 * pyInt (ns / ss)).toNat = 2 * (⌊ns / ss⌋).toNat := by
    rw [hpy]; omega
  rw [htn, binLoop_pos_eq _ _ hstd]
  rw [List.range_succ_eq_map, List.map_cons, List.map_map]
  congr 1
  simp

lemma searchsortedLeft_head_le (b v : ℝ) (l : List ℝ) (h : v ≤ b) :
    searchsortedLeft (b :: l) v = 0 := by
  rw [searchsortedLeft, if_pos h]

lemma searchsortedLeft_all_lt (l : List ℝ) (v : ℝ) (h : ∀ b ∈ l, b < v) :
    searchsortedLeft l v = l.length := by
  induction l with
  | nil => rfl
  | cons b rest ih =>
    rw [searchsortedLeft]
    rw [if_neg (not_le.mpr (h b (List.mem_cons_self b rest)))]
    rw [ih fun x hx => h x (List.mem_cons_of_mem b hx)]
    rfl

lemma pmean_onefive : pmean [(1:ℝ), 2, 3, 4, 5] = 3 := by
  simp [pmean]
  norm_num

lemma pvariance_onefive : pvariance [(1:ℝ), 2, 3, 4, 5] = 2 := by
  rw [pvariance, pmean_onefive]
  simp
  norm_num

lemma pstd_onefive : pstd [(1:ℝ), 2, 3, 4, 5] = Real.sqrt 2 := by
  rw [pstd, pvariance_onefive]

lemma sqrt_two_gt_zero_const : ZERO < Real.sqrt 2 := by
  rw [ZERO]
  nlinarith [Real.sq_sqrt (show (0:ℝ) ≤ 2 by norm_num), Real.sqrt_nonneg 2]

lemma sqrt_two_lt_two : Real.sqrt 2 < 2 := by
  nlinarith [Real.sq_sqrt (show (0:ℝ) ≤ 2 by norm_num), Real.sqrt_nonneg 2]

lemma fitBins_onefive :
    fitBins 2 (1 / 2) [(1:ℝ), 2, 3, 4, 5] =
      (List.range 9).map fun k => (3 - Real.sqrt 2 * 2) + (k : ℕ) * (Real.sqrt 2 * (1 / 2)) := by
  have h := fitBins_pos_eq 2 (1 / 2) [(1:ℝ), 2, 3, 4, 5]
    (by rw [pstd_onefive]; exact sqrt_two_gt_zero_const) (by norm_num)
  rw [h, pstd_onefive, pmean_onefive]
  norm_num
  rfl

lemma mapBucket_onefive_low :
    searchsortedLeft (fitBins 2 (1 / 2) [(1:ℝ), 2, 3, 4, 5]) (-100) = 0 := by
  rw [fitBins_onefive]
  have h9 : List.range 9 = [0, 1, 2, 3, 4, 5, 6, 7, 8] := rfl
  rw [h9, List.map_cons]
  apply searchsortedLeft_head_le
  have h := sqrt_two_lt_two
  push_cast
  nlinarith

lemma mapBucket_onefive_high :
    searchsortedLeft (fitBins 2 (1 / 2) [(1:ℝ), 2, 3, 4, 5]) 100 = 9 := by
  rw [fitBins_onefive]
  rw [searchsortedLeft_all_lt]
  · simp
  · intro b hb
    simp only [List.mem_map, List.mem_range] at hb
    obtain ⟨k, hk, rfl⟩ := hb
    have hk8 : (k : ℝ) ≤ 8 := by exact_mod_cast Nat.lt_succ_iff.mp hk
    have h2 := sqrt_two_lt_two
    have h0 := Real.sqrt_nonneg 2
    nlinarith

lemma ok_bind {e a b : Type} (x : a) (f : a → Except e b) :
    (Except.ok x >>= f) = f x := rfl

lemma error_bind {e a b : Type} (err : e) (f : a → Except e b) :
    ((Except.error err : Except e a) >>= f) = Except.error err := rfl

lemma dictSet_mem {α : Type} (fs : List (String × α)) (k : String) (v : α)
    (p : String × α) (hp : p ∈ dictSet fs k v) : p ∈ fs ∨ p.2 = v := by
  induction fs with
  | nil =>
    rw [dictSet] at hp
    rcases List.mem_singleton.mp hp with h
    right; rw [h]
  | cons q rest ih =>
    rw [dictSet] at hp
    split at hp
    · rcases List.mem_cons.mp hp with h | h
      · right; rw [h]
      · left; exact List.mem_cons_of_mem q h
    · rcases List.mem_cons.mp hp with h | h
      · left; rw [h]; exact List.mem_cons_self q rest
      · rcases ih h with h2 | h2
        · left; exact List.mem_cons_of_mem q h2
        · right; exact h2

lemma collectFeature_pres (fs : List (String × List ℝ)) (name : String) (v : PyVal)
    (fs2 : List (String × List ℝ)) (h : collectFeature fs name v = .ok fs2)
    (inv : ∀ p ∈ fs, p.2 ≠ ([] : List ℝ)) : ∀ p ∈ fs2, p.2 ≠ ([] : List ℝ) := by
  rw [collectFeature] at h
  cases hv : pyFloat v with
  | ok x =>
    rw [hv] at h
    cases h
    intro p hp
    rcases dictSet_mem _ _ _ p hp with h2 | h2
    · exact inv p h2
    · rw [h2]
      exact List.append_ne_nil_of_right_ne_nil _ (by simp)
  | error e =>
    cases e with
    | valueError =>
      rw [hv] at h
      cases h
      exact inv
    | typeError =>
      rw [hv] at h
      cases h

lemma collectWord_pres (w : Word) :
    ∀ fs fs2, collectWord fs w = .ok fs2 →
      (∀ p ∈ fs, p.2 ≠ ([] : List ℝ)) → ∀ p ∈ fs2, p.2 ≠ ([] : List ℝ) := by
  induction w with
  | nil =>
    intro fs fs2 h inv
    rw [collectWord] at h
    cases h
    exact inv
  | cons nv rest ih =>
    intro fs fs2 h inv
    rw [collectWord] at h
    cases hv : collectFeature fs nv.1 nv.2 with
    | ok fs1 =>
      rw [hv] at h
      simp only [ok_bind] at h
      exact ih fs1 fs2 h (collectFeature_pres fs nv.1 nv.2 fs1 hv inv)
    | error e =>
      rw [hv] at h
      simp only [error_bind] at h
      cases h

lemma collectSentence_pres (s : List Word) :
    ∀ fs fs2, collectSentence fs s = .ok fs2 →
      (∀ p ∈ fs, p.2 ≠ ([] : List ℝ)) → ∀ p ∈ fs2, p.2 ≠ ([] : List ℝ) := by
  induction s with
  | nil =>
    intro fs fs2 h inv
    rw [collectSentence] at h
    cases h
    exact inv
  | cons w rest ih =>
    intro fs fs2 h inv
    rw [collectSentence] at h
    cases hv : collectWord fs w with
    | ok fs1 =>
      rw [hv, ok_bind] at h
      exact ih fs1 fs2 h (collectWord_pres w fs fs1 hv inv)
    | error e =>
      rw [hv, error_bind] at h
      cases h

lemma binnerCollect_pres (X : Dataset) :
    ∀ fs fs2, binnerCollect fs X = .ok fs2 →
      (∀ p ∈ fs, p.2 ≠ ([] : List ℝ)) → ∀ p ∈ fs2, p.2 ≠ ([] : List ℝ) := by
  induction X with
  | nil =>
    intro fs fs2 h inv
    rw [binnerCollect] at h
    cases h
    exact inv
  | cons s rest ih =>
    intro fs fs2 h inv
    rw [binnerCollect] at h
    cases hv : collectSentence fs s with
    | ok fs1 =>
      rw [hv, ok_bind] at h
      exact ih fs1 fs2 h (collectSentence_pres s fs fs1 hv inv)
    | error e =>
      rw [hv, error_bind] at h
      cases h

lemma collectFeature_ok (fs : List (String × List ℝ)) (name : String) (v : PyVal)
    (hv : v ≠ PyVal.pyNone) : ∃ fs2, collectFeature fs name v = .ok fs2 := by
  cases v with
  | num x => exact ⟨_, rfl⟩
  | numStr x => exact ⟨_, rfl⟩
  | rawStr s => exact ⟨_, rfl⟩
  | bucket n => exact ⟨_, rfl⟩
  | pyNone => exact absurd rfl hv

lemma collectWord_ok (w : Word) (hw : ∀ nv ∈ w, nv.2 ≠ PyVal.pyNone) :
    ∀ fs, ∃ fs2, collectWord fs w = .ok fs2 := by
  induction w with
  | nil => exact fun fs => ⟨fs, rfl⟩
  | cons nv rest ih =>
    intro fs
    obtain ⟨fs1, h1⟩ := collectFeature_ok fs nv.1 nv.2 (hw nv (List.mem_cons_self nv rest))
    obtain ⟨fs2, h2⟩ := ih (fun q hq => hw q (List.mem_cons_of_mem nv hq)) fs1
    exact ⟨fs2, by rw [collectWord, h1, ok_bind, h2]⟩

lemma collectSentence_ok (s : List Word) (hs : ∀ w ∈ s, ∀ nv ∈ w, nv.2 ≠ PyVal.pyNone) :
    ∀ fs, ∃ fs2, collectSentence fs s = .ok fs2 := by
  induction s with
  | nil => exact fun fs => ⟨fs, rfl⟩
  | cons w rest ih =>
    intro fs
    obtain ⟨fs1, h1⟩ := collectWord_ok w (hs w (List.mem_cons_self w rest)) fs
    obtain ⟨fs2, h2⟩ := ih (fun q hq => hs q (List.mem_cons_of_mem w hq)) fs1
    exact ⟨fs2, by rw [collectSentence, h1, ok_bind, h2]⟩

lemma binnerCollect_ok (X : Dataset)
    (hX : ∀ s ∈ X, ∀ w ∈ s, ∀ nv ∈ w, nv.2 ≠ PyVal.pyNone) :
    ∀ fs, ∃ fs2, binnerCollect fs X = .ok fs2 := by
  induction X with
  | nil => exact fun fs => ⟨fs, rfl⟩
  | cons s rest ih =>
    intro fs
    obtain ⟨fs1, h1⟩ := collectSentence_ok s (hX s (List.mem_cons_self s rest)) fs
    obtain ⟨fs2, h2⟩ := ih (fun q hq => hX q (List.mem_cons_of_mem s hq)) fs1
    exact ⟨fs2, by rw [binnerCollect, h1, ok_bind, h2]⟩

lemma mapFeature_ok (fitted : List (String × List ℝ)) (name : String) (v : PyVal)
    (hv : v ≠ PyVal.pyNone) : ∃ out, mapFeature fitted name v = .ok out := by
  cases v with
  | num x =>
    rw [mapFeature]
    cases List.lookup name fitted <;> exact ⟨_, rfl⟩
  | numStr x =>
    rw [mapFeature]
    cases List.lookup name fitted <;> exact ⟨_, rfl⟩
  | rawStr s => exact ⟨_, rfl⟩
  | bucket n =>
    rw [mapFeature]
    cases List.lookup name fitted <;> exact ⟨_, rfl⟩
  | pyNone => exact absurd rfl hv

lemma transformWord_ok (fitted : List (String × List ℝ)) (w : Word)
    (hw : ∀ nv ∈ w, nv.2 ≠ PyVal.pyNone) : ∃ out, transformWord fitted w = .ok out := by
  induction w with
  | nil => exact ⟨[], rfl⟩
  | cons nv rest ih =>
    obtain ⟨nf, h1⟩ := mapFeature_ok fitted nv.1 nv.2 (hw nv (List.mem_cons_self nv rest))
    obtain ⟨out, h2⟩ := ih fun q hq => hw q (List.mem_cons_of_mem nv hq)
    exact ⟨_, by rw [transformWord, h1, ok_bind, h2, ok_bind]; rfl⟩

lemma transformSentence_ok (fitted : List (String × List ℝ)) (s : List Word)
    (hs : ∀ w ∈ s, ∀ nv ∈ w, nv.2 ≠ PyVal.pyNone) :
    ∃ out, transformSentence fitted s = .ok out := by
  induction s with
  | nil => exact ⟨[], rfl⟩
  | cons w rest ih =>
    obtain ⟨w1, h1⟩ := transformWord_ok fitted w (hs w (List.mem_cons_self w rest))
    obtain ⟨out, h2⟩ := ih fun q hq => hs q (List.mem_cons_of_mem w hq)
    exact ⟨_, by rw [transformSentence, h1, ok_bind, h2, ok_bind]; rfl⟩

lemma binnerTransform_ok (fitted : List (String × List ℝ)) (X : Dataset)
    (hX : ∀ s ∈ X, ∀ w ∈ s, ∀ nv ∈ w, nv.2 ≠ PyVal.pyNone) :
    ∃ Y, binnerTransform fitted X = .ok Y := by
  induction X with
  | nil => exact ⟨[], rfl⟩
  | cons s rest ih =>
    obtain ⟨s1, h1⟩ := transformSentence_ok fitted s (hX s (List.mem_cons_self s rest))
    obtain ⟨Y, h2⟩ := ih fun q hq => hX q (List.mem_cons_of_mem s hq)
    exact ⟨_, by rw [binnerTransform, h1, ok_bind, h2, ok_bind]; rfl⟩

end Mindmeld
namespace Mindmeld

/-- C1 counterexample: on a binner fitted on a dataset where no numeric value was
ever seen for name x, transforming a token that carries a numeric value under x
does NOT drop the feature-value pair: the output token still contains the pair,
refuting the claim that it is dropped entirely. -/
theorem c1_counterexample :
    binnerFit [[[( "pos", PyVal.rawStr "NN")]]] = .ok [] ∧
    binnerTransform [] [[[( "x", PyVal.num 5)]]] = .ok [[[( "x", PyVal.num 5)]]] ∧
    binnerTransform [] [[[( "x", PyVal.num 5)]]] ≠ .ok [[([] : Word)]] := by
  refine ⟨rfl, rfl, ?_⟩
  intro h
  rw [show binnerTransform [] [[[( "x", PyVal.num 5)]]] =
    .ok [[[( "x", PyVal.num 5)]]] from rfl] at h
  simp at h

/-- C1 (amended): for every fitted FeatureBinner and token feature whose value is
coercible to a number but whose name has no mapper, the feature-value pair is
passed through to the output token as the coerced float under the same name, not
dropped. -/
theorem c1_numeric_unseen_passthrough (fitted : List (String × List ℝ)) (name : String)
    (v : PyVal) (x : ℝ) (hcoerce : pyFloat v = .ok x)
    (hunseen : List.lookup name fitted = none) :
    mapFeature fitted name v = .ok [(name, PyVal.num x)] := by
  simp only [mapFeature, hcoerce, hunseen]

/-- C1 witness: concrete instance of the amended pass-through theorem. -/
theorem c1_numeric_unseen_passthrough_witness :
    pyFloat (PyVal.num 5) = .ok 5 ∧
    List.lookup "x" ([] : List (String × List ℝ)) = none ∧
    mapFeature [] "x" (PyVal.num 5) = .ok [( "x", PyVal.num 5)] :=
  ⟨rfl, rfl, c1_numeric_unseen_passthrough [] "x" (PyVal.num 5) 5 rfl rfl⟩

/-- C2: divergence of the code from the claim (and from the FeatureMapper class
docstring's half-open bucket intervals) at the failing input: a mapper fitted on
the constant list with both values 3 has the single boundary 3; the code's
map_bucket (np.searchsorted with the default left side) sends the value 3 to
bucket 0, while the claimed semantics (index of the first boundary strictly
greater than v, equivalently the count of boundaries at most v) gives 1. -/
theorem c2_map_bucket_boundary_divergence :
    fitBins 2 (1 / 2) [(3:ℝ), 3] = [3] ∧
    searchsortedLeft (fitBins 2 (1 / 2) [(3:ℝ), 3]) 3 = 0 ∧
    mapBucketSpec (fitBins 2 (1 / 2) [(3:ℝ), 3]) 3 = 1 := by
  have hb : fitBins 2 (1 / 2) [(3:ℝ), 3] = [3] := by
    have h := fitBins_replicate 2 (1 / 2) 3 2 (by norm_num)
    rw [show List.replicate 2 (3:ℝ) = [3, 3] from rfl] at h
    exact h
  refine ⟨hb, ?_, ?_⟩
  · rw [hb, searchsortedLeft_singleton, if_pos le_rfl]
  · rw [hb, mapBucketSpec, if_neg (lt_irrefl 3), mapBucketSpec]

/-- C3 counterexample: after fitting on the constant list with both values 3,
map_bucket does not return the same bucket for every lookup value: 2 and 4 land
in different buckets. -/
theorem c3_counterexample :
    searchsortedLeft (fitBins 2 (1 / 2) [(3:ℝ), 3]) 2 ≠
      searchsortedLeft (fitBins 2 (1 / 2) [(3:ℝ), 3]) 4 := by
  have hb : fitBins 2 (1 / 2) [(3:ℝ), 3] = [3] := by
    have h := fitBins_replicate 2 (1 / 2) 3 2 (by norm_num)
    rw [show List.replicate 2 (3:ℝ) = [3, 3] from rfl] at h
    exact h
  rw [hb, searchsortedLeft_singleton, searchsortedLeft_singleton]
  norm_num

/-- C3 (amended): fitting a FeatureMapper on a non-empty list of identical values
yields exactly one boundary, the common value c; afterwards lookups return bucket
0 for values at most c and bucket 1 for values above c, so at most two distinct
buckets, not one. -/
theorem c3_constant_fit_two_buckets (c : ℝ) (n : ℕ) (hn : 0 < n) (ns ss : ℝ) :
    fitBins ns ss (List.replicate n c) = [c] ∧
    ∀ v : ℝ, searchsortedLeft (fitBins ns ss (List.replicate n c)) v =
      if v ≤ c then 0 else 1 := by
  refine ⟨fitBins_replicate ns ss c n hn, fun v => ?_⟩
  rw [fitBins_replicate ns ss c n hn, searchsortedLeft_singleton]

/-- C3 witness: concrete instance of the amended constant-fit theorem. -/
theorem c3_constant_fit_two_buckets_witness :
    0 < 2 ∧
    (fitBins 2 (1 / 2) (List.replicate 2 (3:ℝ)) = [3] ∧
      ∀ v : ℝ, searchsortedLeft (fitBins 2 (1 / 2) (List.replicate 2 (3:ℝ))) v =
        if v ≤ 3 then 0 else 1) :=
  ⟨by norm_num, c3_constant_fit_two_buckets 3 2 (by norm_num) 2 (1 / 2)⟩

/-- C4: for every FeatureMapper fitted on a non-empty value list whose standard
deviation exceeds the epsilon ZERO (with a non-negative num_std to size_std
ratio, as in the defaults), fit produces exactly 2 * floor(num_std / size_std) + 1
boundaries, starting at mean - std * num_std and advancing by std * size_std per
step. -/
theorem c4_fit_bins_layout (ns ss : ℝ) (values : List ℝ) (hne : values ≠ [])
    (hstd : ZERO < pstd values) (hr : 0 ≤ ns / ss) :
    fitBins ns ss values =
      (List.range (2 * (⌊ns / ss⌋).toNat + 1)).map
        (fun k => (pmean values - pstd values * ns) + (k : ℕ) * (pstd values * ss)) ∧
    (fitBins ns ss values).length = 2 * (⌊ns / ss⌋).toNat + 1 := by
  refine ⟨fitBins_pos_eq ns ss values hstd hr, ?_⟩
  rw [fitBins_pos_eq ns ss values hstd hr]
  simp

/-- C4 witness: the concrete scenario num_std = 2, size_std = 0.5, values
1,2,3,4,5 (mean 3, standard deviation the square root of 2): 9 boundaries
starting at 3 minus twice the square root of 2 and stepping by half the square
root of 2; map_bucket of -100 gives bucket 0 and map_bucket of 100 gives 9, the
last bucket index. -/
theorem c4_fit_bins_layout_witness :
    (([1, 2, 3, 4, 5] : List ℝ) ≠ []) ∧
    ZERO < pstd [(1:ℝ), 2, 3, 4, 5] ∧
    ((0:ℝ) ≤ 2 / (1 / 2)) ∧
    (fitBins 2 (1 / 2) [(1:ℝ), 2, 3, 4, 5]).length = 9 ∧
    pstd [(1:ℝ), 2, 3, 4, 5] = Real.sqrt 2 ∧
    pmean [(1:ℝ), 2, 3, 4, 5] = 3 ∧
    (fitBins 2 (1 / 2) [(1:ℝ), 2, 3, 4, 5] =
      (List.range 9).map fun k =>
        (3 - Real.sqrt 2 * 2) + (k : ℕ) * (Real.sqrt 2 * (1 / 2))) ∧
    searchsortedLeft (fitBins 2 (1 / 2) [(1:ℝ), 2, 3, 4, 5]) (-100) = 0 ∧
    searchsortedLeft (fitBins 2 (1 / 2) [(1:ℝ), 2, 3, 4, 5]) 100 = 9 := by
  have hne : ([1, 2, 3, 4, 5] : List ℝ) ≠ [] := by simp
  have hstd : ZERO < pstd [(1:ℝ), 2, 3, 4, 5] := by
    rw [pstd_onefive]; exact sqrt_two_gt_zero_const
  have hr : (0:ℝ) ≤ 2 / (1 / 2) := by norm_num
  have h := c4_fit_bins_layout 2 (1 / 2) [(1:ℝ), 2, 3, 4, 5] hne hstd hr
  refine ⟨hne, hstd, hr, ?_, pstd_onefive, pmean_onefive, fitBins_onefive,
    mapBucket_onefive_low, mapBucket_onefive_high⟩
  rw [h.2]
  norm_num
  rfl

/-- C5: for every FeatureMapper fitted on a non-empty value sequence and all
values v1 strictly below v2, map_bucket of v1 is at most map_bucket of v2. -/
theorem c5_map_bucket_monotone (ns ss : ℝ) (values : List ℝ) (hne : values ≠ [])
    (v1 v2 : ℝ) (h : v1 < v2) :
    searchsortedLeft (fitBins ns ss values) v1 ≤
      searchsortedLeft (fitBins ns ss values) v2 :=
  searchsortedLeft_mono _ v1 v2 (le_of_lt h)

/-- C5 witness: concrete instance of the monotonicity theorem. -/
theorem c5_map_bucket_monotone_witness :
    (([3, 3] : List ℝ) ≠ []) ∧ ((0:ℝ) < 1) ∧
    searchsortedLeft (fitBins 2 (1 / 2) [(3:ℝ), 3]) 0 ≤
      searchsortedLeft (fitBins 2 (1 / 2) [(3:ℝ), 3]) 1 :=
  ⟨by simp, by norm_num, c5_map_bucket_monotone 2 (1 / 2) [3, 3] (by simp) 0 1 (by norm_num)⟩

/-- C6: for every pair of underlying-model outputs of matching shape, the
confidence predict_proba reports at each query and token position equals exactly
the mass the token's marginal distribution assigns to the label predict returned
at that position. -/
theorem c6_confidence_is_marginal_of_predicted {T : Type} (pred : List (List T))
    (marg : List (List (T → ℝ))) (t0 : T) (qi i : ℕ)
    (hq : qi < pred.length) (hlen : pred.length = marg.length)
    (hi : i < (pred.getD qi []).length)
    (hlen2 : (pred.getD qi []).length = (marg.getD qi []).length) :
    ((predictProba pred marg).getD qi []).getD i (t0, 0) =
      ((pred.getD qi []).getD i t0,
        ((marg.getD qi []).getD i fun _ => 0) ((pred.getD qi []).getD i t0)) := by
  have hq2 : qi < marg.length := hlen ▸ hq
  have h1 : qi < (predictProba pred marg).length := by
    simp only [predictProba, List.length_map, List.length_zip, hlen, min_self]
    exact hq2
  have hzq : qi < (pred.zip marg).length := by
    simp only [List.length_zip, hlen, min_self]
    exact hq2
  rw [List.getD_eq_getElem _ _ h1, List.getD_eq_getElem _ _ hq] at *
  rw [List.getD_eq_getElem _ _ hq2] at *
  have hi2 : i < (marg[qi]).length := by rw [← hlen2]; exact hi
  rw [List.getD_eq_getElem _ _ hi, List.getD_eq_getElem _ _ hi2]
  have hmain : (predictProba pred marg)[qi] =
      ((pred[qi]).zip (marg[qi])).map fun tm => (tm.1, tm.2 tm.1) := by
    simp only [predictProba]
    rw [List.getElem_map]
    congr 1
    rw [List.getElem_zip]
  rw [hmain]
  have hzi : i < ((pred[qi]).zip (marg[qi])).length := by
    simp only [List.length_zip, hlen2, min_self] at *
    omega
  have hii : i < (((pred[qi]).zip (marg[qi])).map fun tm => (tm.1, tm.2 tm.1)).length := by
    simpa using hzi
  rw [List.getD_eq_getElem _ _ hii, List.getElem_map]
  simp [List.getElem_zip]

/-- C6 witness: concrete instance with one query, one token and a marginal
putting mass 9/10 on every label. -/
theorem c6_confidence_is_marginal_of_predicted_witness :
    (0 < ([[ "a"]] : List (List String)).length) ∧
    (([[ "a"]] : List (List String)).length =
      ([[fun _ => (9:ℝ) / 10]] : List (List (String → ℝ))).length) ∧
    (0 < (([[ "a"]] : List (List String)).getD 0 []).length) ∧
    ((([[ "a"]] : List (List String)).getD 0 []).length =
      (([[fun _ => (9:ℝ) / 10]] : List (List (String → ℝ))).getD 0 []).length) ∧
    ((predictProba [[ "a"]] [[fun _ => (9:ℝ) / 10]]).getD 0 []).getD 0 ( "a", 0) =
      ( "a", (9:ℝ) / 10) := by
  refine ⟨by norm_num, by norm_num, by norm_num, by norm_num, ?_⟩
  have h := c6_confidence_is_marginal_of_predicted ([[ "a"]]) ([[fun _ => (9:ℝ) / 10]])
    "a" 0 0 (by norm_num) (by norm_num) (by norm_num) (by norm_num)
  rw [h]
  simp

/-- C7 counterexample: a dataset holding a feature value of a type whose float
coercion raises TypeError rather than ValueError (here the None object) makes
both fit and transform propagate the exception, since the source catches only
ValueError; this refutes the claim that no value type can make them raise. -/
theorem c7_counterexample :
    binnerFit [[[( "f", PyVal.pyNone)]]] = .error PyErr.typeError ∧
    binnerTransform [] [[[( "f", PyVal.pyNone)]]] = .error PyErr.typeError :=
  ⟨rfl, rfl⟩

/-- C7 (amended): for every dataset whose feature values are numbers or strings
(anything whose failed numeric coercion raises ValueError, the only exception the
source catches), FeatureBinner fit and transform never propagate an exception:
fit skips the failed collection and transform passes the value through. -/
theorem c7_no_raise_without_none (X : Dataset)
    (hX : ∀ s ∈ X, ∀ w ∈ s, ∀ nv ∈ w, nv.2 ≠ PyVal.pyNone) :
    (∃ feats, binnerFit X = .ok feats) ∧
    ∀ fitted, ∃ Y, binnerTransform fitted X = .ok Y := by
  constructor
  · obtain ⟨fs, h⟩ := binnerCollect_ok X hX []
    exact ⟨_, by simp only [binnerFit]; rw [h, ok_bind]; rfl⟩
  · intro fitted
    exact binnerTransform_ok fitted X hX

/-- C7 witness: concrete instance mixing a non-numeric string and a number. -/
theorem c7_no_raise_without_none_witness :
    (∀ s ∈ ([[[( "a", PyVal.rawStr "abc"), ( "b", PyVal.num 1)]]] : Dataset),
      ∀ w ∈ s, ∀ nv ∈ w, nv.2 ≠ PyVal.pyNone) ∧
    ((∃ feats, binnerFit [[[( "a", PyVal.rawStr "abc"), ( "b", PyVal.num 1)]]] = .ok feats) ∧
      ∀ fitted, ∃ Y,
        binnerTransform fitted [[[( "a", PyVal.rawStr "abc"), ( "b", PyVal.num 1)]]] = .ok Y) := by
  have hX : ∀ s ∈ ([[[( "a", PyVal.rawStr "abc"), ( "b", PyVal.num 1)]]] : Dataset),
      ∀ w ∈ s, ∀ nv ∈ w, nv.2 ≠ PyVal.pyNone := by
    simp
    rintro a b (⟨rfl, rfl⟩ | ⟨rfl, rfl⟩) <;> simp
  exact ⟨hX, c7_no_raise_without_none _ hX⟩

/-- C9: whenever the collection phase of FeatureBinner.fit succeeds, every
FeatureMapper stored in the features dictionary holds at least one collected
value, so the mean and standard deviation computed by the mapper's fit are over a
non-empty list and their denominator (the value count) is a non-zero real. -/
theorem c9_mappers_nonempty_at_fit (X : Dataset) (feats : List (String × List ℝ))
    (h : binnerCollect [] X = .ok feats) :
    ∀ p ∈ feats, p.2 ≠ ([] : List ℝ) ∧ ((p.2.length : ℝ) ≠ 0) := by
  intro p hp
  have h1 := binnerCollect_pres X [] feats h (by simp) p hp
  refine ⟨h1, ?_⟩
  have h2 : p.2.length ≠ 0 := fun hh => h1 (List.length_eq_zero.mp hh)
  exact_mod_cast h2

/-- C9 witness: concrete instance of the non-empty-mapper invariant. -/
theorem c9_mappers_nonempty_at_fit_witness :
    binnerCollect [] [[[( "a", PyVal.num 1)]]] = .ok [( "a", [(1:ℝ)])] ∧
    ∀ p ∈ [( "a", [(1:ℝ)])], p.2 ≠ ([] : List ℝ) ∧ ((p.2.length : ℝ) ≠ 0) :=
  ⟨rfl, c9_mappers_nonempty_at_fit [[[( "a", PyVal.num 1)]]] [( "a", [(1:ℝ)])] rfl⟩

/-- C10: for every fitted FeatureBinner, a feature value given as a string that
parses to the number x under a name with no fitted mapper is emitted as the
coerced float x under the same name, not as the original string
representation. -/
theorem c10_coerced_float_passthrough (fitted : List (String × List ℝ)) (name : String)
    (x : ℝ) (hunseen : List.lookup name fitted = none) :
    mapFeature fitted name (PyVal.numStr x) = .ok [(name, PyVal.num x)] ∧
    mapFeature fitted name (PyVal.numStr x) ≠ .ok [(name, PyVal.numStr x)] := by
  have h : mapFeature fitted name (PyVal.numStr x) = .ok [(name, PyVal.num x)] := by
    simp only [mapFeature, pyFloat, hunseen]
  refine ⟨h, ?_⟩
  rw [h]
  intro hcontra
  simp at hcontra

/-- C10 witness: the numeric string parsing to 5 becomes the float 5. -/
theorem c10_coerced_float_passthrough_witness :
    List.lookup "len" ([] : List (String × List ℝ)) = none ∧
    (mapFeature [] "len" (PyVal.numStr 5) = .ok [( "len", PyVal.num 5)] ∧
      mapFeature [] "len" (PyVal.numStr 5) ≠ .ok [( "len", PyVal.numStr 5)]) :=
  ⟨rfl, c10_coerced_float_passthrough [] "len" 5 rfl⟩

end Mindmeld

namespace Mmworkbench

/-- C8: for every model path at which no persisted model file exists,
Classifier.load raises the domain-specific ClassifierLoadError whose message
carries the classifier class name and the target path, not the raw
file-not-found error, and the classifier's model slot is left unchanged. -/
theorem c8_load_missing_file {M : Type} (fs : String → Option M) (className path : String)
    (st : ClassifierState M) (hmiss : fs path = none) :
    classifierLoad fs className st path =
      (st, some (PyException.classifierLoadError
        ( "Unable to load " ++ className ++ ". Pickle file not found at " ++ pyRepr path))) := by
  simp only [classifierLoad, joblibLoad, hmiss]
  rfl

/-- C8 witness: concrete instance on an empty filesystem. -/
theorem c8_load_missing_file_witness :
    ((fun _ => (none : Option Unit)) "models/domain.pkl" = none) ∧
    classifierLoad (fun _ => (none : Option Unit)) "DomainClassifier"
        ⟨none⟩ "models/domain.pkl" =
      (⟨none⟩, some (PyException.classifierLoadError
        ( "Unable to load " ++ "DomainClassifier" ++ ". Pickle file not found at " ++
          pyRepr "models/domain.pkl"))) :=
  ⟨rfl, c8_load_missing_file (fun _ => none) "DomainClassifier" "models/domain.pkl" ⟨none⟩ rfl⟩

end Mmworkbench
